import Mathlib

/-!
Verification of the printer orchestration core (`octoprint/printer.py`).

The Python source is shallowly embedded: each relevant method becomes an
executable Lean function over explicit state, Python strings become
`List Char` (Lean's built-in `String` operations are not kernel-reducible),
Python float fractions become `ℚ`, exceptions become `Except`/`Option`, and
calls into the external serial Communicator object become explicit event
lists.  Background threads (`GcodeLoader`, `SdFileStreamer`, the
`StateMonitor` worker) are embedded as pure functions from their inputs to
the trace of effects they perform, and interleavings with the orchestrator
are modelled as explicit event sequences.
-/

namespace OctoPrint

/-! ## Python string primitives over `List Char`

`pyIsSpace` is the whitespace class of Python's `str.strip`.
`pyStrip l` embeds `l.strip()`, `stripComment l` embeds
`line[0:line.find(";")] if ";" in line else line`. -/

def pyIsSpace (c : Char) : Bool :=
  c == ' ' || c == '\t' || c == '\n' || c == '\x0b' || c == '\x0c' || c == '\r'

def pyStrip (l : List Char) : List Char :=
  ((l.dropWhile pyIsSpace).reverse.dropWhile pyIsSpace).reverse

def stripComment (l : List Char) : List Char :=
  if l.contains ';' then l.takeWhile (fun c => !(c == ';')) else l

/-- Byte size of one raw line of the file, newline terminator included
(`file.tell()` advances by this much per iterated line). -/
def lineSize (line : List Char) : Nat :=
  (line.map Char.utf8Size).sum + 1

/-! ## GcodeLoader (`GcodeLoader.run`)

An entry of the produced gcode list is either a bare command string or a
`(line, lineType)` pair, exactly as the Python list holds either a `str` or
a 2-tuple. -/

inductive GcodeEntry where
  | cmd (line : List Char)
  | tagged (line : List Char) (lineType : List Char)
  deriving DecidableEq

structure LoaderAcc where
  prevLineType : List Char
  lineType : List Char
  gcodeList : List GcodeEntry
  tell : Nat
  progress : List ℚ
  deriving DecidableEq

/-- One iteration of the `for line in file` loop of `GcodeLoader.run`:
update the current segment label on a `;TYPE:` marker, cut the comment
portion, strip whitespace, emit a tagged or bare command for a non-empty
result, and report `file.tell() / filesize` as progress. -/
def GcodeLoader.processLine (filesize : Nat) (acc : LoaderAcc) (rawLine : List Char) :
    LoaderAcc :=
  let lineType :=
    if (";TYPE:".toList).isPrefixOf rawLine then pyStrip (rawLine.drop 6)
    else acc.lineType
  let line := pyStrip (stripComment rawLine)
  let out :=
    if line.length > 0 then
      if acc.prevLineType ≠ lineType then
        (acc.gcodeList ++ [GcodeEntry.tagged line lineType], lineType)
      else
        (acc.gcodeList ++ [GcodeEntry.cmd line], lineType)
    else
      (acc.gcodeList, acc.prevLineType)
  let tell := acc.tell + lineSize rawLine
  { prevLineType := out.2, lineType := lineType, gcodeList := out.1,
    tell := tell, progress := acc.progress ++ [(tell : ℚ) / (filesize : ℚ)] }

/-- Initial accumulator of `GcodeLoader.run`: `prevLineType = lineType =
"CUSTOM"`, the list seeded with the synthetic `"M110 N0"` reset command. -/
def GcodeLoader.initAcc : LoaderAcc :=
  { prevLineType := "CUSTOM".toList, lineType := "CUSTOM".toList,
    gcodeList := [GcodeEntry.cmd "M110 N0".toList], tell := 0, progress := [] }

/-- `GcodeLoader.run`, as a function from the file's raw lines to the
produced gcode list and the sequence of reported progress fractions. -/
def GcodeLoader.run (lines : List (List Char)) : List GcodeEntry × List ℚ :=
  let filesize := (lines.map lineSize).sum
  let acc := lines.foldl (GcodeLoader.processLine filesize) GcodeLoader.initAcc
  (acc.gcodeList, acc.progress)

/-! ## Bounded histories (`Printer._addLog`, `_addMessage`,
`_addTemperatureData`)

Each history is maintained by `xs.append(x); xs = xs[-300:]`, embedded as
`appendBounded`. -/

def appendBounded {α : Type} (l : List α) (x : α) : List α :=
  (l ++ [x]).drop ((l ++ [x]).length - 300)

structure Histories where
  log : List (List Char)
  messages : List (List Char)
  tempsActual : List (Nat × Option ℚ)
  tempsTarget : List (Nat × Option ℚ)
  tempsActualBed : List (Nat × Option ℚ)
  tempsTargetBed : List (Nat × Option ℚ)
  deriving DecidableEq

def Printer.addLogHist (h : Histories) (line : List Char) : Histories :=
  { h with log := appendBounded h.log line }

def Printer.addMessageHist (h : Histories) (message : List Char) : Histories :=
  { h with messages := appendBounded h.messages message }

/-- `Printer._addTemperatureData`: appends one sample, stamped with the
same current time, to each of the four temperature series and truncates
each to its last 300 entries. -/
def Printer.addTemperatureDataHist (h : Histories) (now : Nat)
    (temp bedTemp targetTemp bedTargetTemp : Option ℚ) : Histories :=
  { h with
    tempsActual := appendBounded h.tempsActual (now, temp),
    tempsTarget := appendBounded h.tempsTarget (now, targetTemp),
    tempsActualBed := appendBounded h.tempsActualBed (now, bedTemp),
    tempsTargetBed := appendBounded h.tempsTargetBed (now, bedTargetTemp) }

inductive HistEvent where
  | log (line : List Char)
  | message (text : List Char)
  | temperature (now : Nat) (temp bedTemp targetTemp bedTargetTemp : Option ℚ)

def applyHistEvent (h : Histories) : HistEvent → Histories
  | HistEvent.log line => Printer.addLogHist h line
  | HistEvent.message text => Printer.addMessageHist h text
  | HistEvent.temperature now a b c d => Printer.addTemperatureDataHist h now a b c d

def applyHistEvents (h : Histories) (es : List HistEvent) : Histories :=
  es.foldl applyHistEvent h

def initialHistories : Histories :=
  { log := [], messages := [], tempsActual := [], tempsTarget := [],
    tempsActualBed := [], tempsTargetBed := [] }

def boundedAll (h : Histories) : Prop :=
  h.log.length ≤ 300 ∧ h.messages.length ≤ 300 ∧
  h.tempsActual.length ≤ 300 ∧ h.tempsTarget.length ≤ 300 ∧
  h.tempsActualBed.length ≤ 300 ∧ h.tempsTargetBed.length ≤ 300

/-! Helper lemmas for the histories. -/

theorem appendBounded_length_le {α : Type} (l : List α) (x : α) :
    (appendBounded l x).length ≤ 300 := by
  simp only [appendBounded, List.length_drop]
  omega

theorem boundedAll_applyHistEvent (h : Histories) (e : HistEvent)
    (hb : boundedAll h) : boundedAll (applyHistEvent h e) := by
  obtain ⟨h1, h2, h3, h4, h5, h6⟩ := hb
  cases e <;>
    simp [applyHistEvent, Printer.addLogHist, Printer.addMessageHist,
      Printer.addTemperatureDataHist, boundedAll, appendBounded_length_le, *]

theorem boundedAll_applyHistEvents (es : List HistEvent) (h : Histories)
    (hb : boundedAll h) : boundedAll (applyHistEvents h es) := by
  induction es generalizing h with
  | nil => exact hb
  | cons e es ih =>
    exact ih _ (boundedAll_applyHistEvent h e hb)

/-- C3: after every sequence of append operations starting from the empty
histories, every bounded history (log, messages and the four temperature
series) has length at most 300; an append onto a history that already
holds 300 entries drops exactly the oldest entry; and the retained entries
are a contiguous suffix of the appended sequence, so their relative order
is preserved. -/
theorem histories_bounded_at_300 :
    (∀ es : List HistEvent, boundedAll (applyHistEvents initialHistories es)) ∧
    (∀ (α : Type) (l : List α) (x : α), l.length = 300 →
      appendBounded l x = l.drop 1 ++ [x]) ∧
    (∀ (α : Type) (l : List α) (x : α),
      List.IsSuffix (appendBounded l x) (l ++ [x])) := by
  refine ⟨fun es => boundedAll_applyHistEvents es _ ?_, fun α l x hl => ?_, fun α l x => ?_⟩
  · simp [initialHistories, boundedAll]
  · have hlen : (l ++ [x]).length - 300 = 1 := by simp [hl]
    rw [appendBounded, hlen, List.drop_append_eq_append_drop]
    simp [hl]
  · exact List.drop_suffix _ _

/-- Witness for C3: appending to a history of exactly 300 entries evicts
precisely the oldest one. -/
theorem histories_bounded_at_300_witness :
    appendBounded (List.replicate 300 (0 : ℕ)) 1 =
      (List.replicate 300 (0 : ℕ)).drop 1 ++ [1] :=
  histories_bounded_at_300.2.1 ℕ (List.replicate 300 0) 1 (List.length_replicate 300 0)

/-! ## C4: the concrete `GcodeLoader` input from the specification. -/

def c4Lines : List (List Char) :=
  ["G1 X1".toList, ";TYPE:WALL-OUTER".toList, "G1 X2 ; comment".toList,
   "   ".toList, "G1 X3".toList]

/-- C4: on the file whose lines are `G1 X1`, `;TYPE:WALL-OUTER`,
`G1 X2 ; comment`, a whitespace-only line and `G1 X3`, the loader produces
exactly the reset command, `G1 X1` bare, `G1 X2` paired with segment label
`WALL-OUTER`, `G1 X3` bare (blank line skipped, comments stripped, lines
trimmed), and the final reported progress fraction is exactly 1. -/
theorem gcodeLoader_c4_input :
    (GcodeLoader.run c4Lines).1 =
      [GcodeEntry.cmd "M110 N0".toList, GcodeEntry.cmd "G1 X1".toList,
       GcodeEntry.tagged "G1 X2".toList "WALL-OUTER".toList,
       GcodeEntry.cmd "G1 X3".toList] ∧
    (GcodeLoader.run c4Lines).2.getLast? = some 1 := by
  constructor
  · decide
  · have h : (GcodeLoader.run c4Lines).2.getLast? =
        some (((49 : ℕ) : ℚ) / ((49 : ℕ) : ℚ)) := rfl
    rw [h]
    norm_num

/-! ## StateMonitor (the rate-limited Broadcaster)

`StateMonitor` keeps six data slots, a `threading.Event` used as a dirty
flag, and a worker thread.  Every mutator writes its slot and sets the
event.  The worker loop (`_work`) blocks in `wait()` until the event is
set, sleeps out the remainder of the rate-limit window, captures
`getCurrentData()`, delivers it once, and clears the event.  The embedding
is a discrete-event model: `applyMutations` is a burst of mutator calls
while the worker is parked, `workCycle` is one iteration of `_work` whose
`during` argument holds the mutator calls that land during the rate-limit
sleep (before the capture).  Real-time sleeping is abstracted away; the
rate limit used by `Printer` is kept as the constant below. -/

def Printer.stateMonitorRatelimit : ℚ := 1 / 2

structure StateMonitorData (α : Type) where
  state : Option α
  jobData : Option α
  gcodeData : Option α
  sdUploadData : Option α
  currentZ : Option α
  progress : Option α
  deriving DecidableEq

inductive MonitorMutation (α : Type) where
  | setState (v : Option α)
  | setJobData (v : Option α)
  | setGcodeData (v : Option α)
  | setSdUploadData (v : Option α)
  | setCurrentZ (v : Option α)
  | setProgress (v : Option α)
  | addTemperature (t : α)
  | addLog (line : List Char)
  | addMessage (text : List Char)
  deriving DecidableEq

/-- Effect of one mutator on the six data slots (`addTemperature`/`addLog`
/`addMessage` forward their payload to a synchronous callback and leave
the slots alone; all mutators additionally set the change event). -/
def mutateData {α : Type} (d : StateMonitorData α) : MonitorMutation α → StateMonitorData α
  | MonitorMutation.setState v => { d with state := v }
  | MonitorMutation.setJobData v => { d with jobData := v }
  | MonitorMutation.setGcodeData v => { d with gcodeData := v }
  | MonitorMutation.setSdUploadData v => { d with sdUploadData := v }
  | MonitorMutation.setCurrentZ v => { d with currentZ := v }
  | MonitorMutation.setProgress v => { d with progress := v }
  | MonitorMutation.addTemperature _ => d
  | MonitorMutation.addLog _ => d
  | MonitorMutation.addMessage _ => d

structure MonitorState (α : Type) where
  data : StateMonitorData α
  changeEventSet : Bool
  deliveries : List (StateMonitorData α)
  deriving DecidableEq

/-- A mutator call: update the slots and set `_changeEvent`. -/
def applyMutation {α : Type} (m : MonitorState α) (mu : MonitorMutation α) : MonitorState α :=
  { m with data := mutateData m.data mu, changeEventSet := true }

def applyMutations {α : Type} (m : MonitorState α) (ms : List (MonitorMutation α)) : MonitorState α :=
  ms.foldl applyMutation m

def StateMonitor.getCurrentData {α : Type} (m : MonitorState α) : StateMonitorData α :=
  m.data

/-- One iteration of the worker loop `_work`.  It runs only when
`_changeEvent` is set (otherwise `wait()` keeps the worker blocked and
nothing is delivered, modelled as `none`).  The mutations in `during` land
during the rate-limit sleep, before the snapshot capture; then the current
data is captured, delivered exactly once, and the event is cleared. -/
def StateMonitor.workCycle {α : Type} (m : MonitorState α)
    (during : List (MonitorMutation α)) : Option (MonitorState α) :=
  if m.changeEventSet then
    let m1 := applyMutations m during
    some { m1 with
      deliveries := m1.deliveries ++ [StateMonitor.getCurrentData m1],
      changeEventSet := false }
  else none

theorem applyMutations_data {α : Type} (ms : List (MonitorMutation α)) (m : MonitorState α) :
    (applyMutations m ms).data = ms.foldl mutateData m.data := by
  induction ms generalizing m with
  | nil => rfl
  | cons mu ms ih => simpa [applyMutations, applyMutation] using ih _

theorem applyMutations_deliveries {α : Type} (ms : List (MonitorMutation α)) (m : MonitorState α) :
    (applyMutations m ms).deliveries = m.deliveries := by
  induction ms generalizing m with
  | nil => rfl
  | cons mu ms ih => simpa [applyMutations, applyMutation] using ih _

theorem applyMutations_eventSet {α : Type} (ms : List (MonitorMutation α)) (m : MonitorState α)
    (h : ms ≠ []) : (applyMutations m ms).changeEventSet = true := by
  induction ms generalizing m with
  | nil => exact absurd rfl h
  | cons mu ms ih =>
    cases ms with
    | nil => rfl
    | cons mu2 ms2 => exact ih _ (by simp)

/-- C2: starting from a parked monitor (change event clear), any non-empty
burst of mutator calls, together with any further mutator calls landing
during the worker's rate-limit sleep, results in exactly one delivery, and
the delivered snapshot is the state after the last mutation; an idle
monitor (no pending signal) delivers nothing. -/
theorem stateMonitor_coalesces {α : Type} (m : MonitorState α)
    (ms during : List (MonitorMutation α))
    (hidle : m.changeEventSet = false) (hne : ms ≠ []) :
    StateMonitor.workCycle (applyMutations m ms) during =
      some { data := (ms ++ during).foldl mutateData m.data,
             changeEventSet := false,
             deliveries := m.deliveries ++ [(ms ++ during).foldl mutateData m.data] } ∧
    StateMonitor.workCycle m [] = none := by
  constructor
  · have hset := applyMutations_eventSet ms m hne
    have hdata : (applyMutations (applyMutations m ms) during).data =
        (ms ++ during).foldl mutateData m.data := by
      rw [applyMutations_data, applyMutations_data, List.foldl_append]
    have hdel : (applyMutations (applyMutations m ms) during).deliveries = m.deliveries := by
      rw [applyMutations_deliveries, applyMutations_deliveries]
    simp [StateMonitor.workCycle, hset, StateMonitor.getCurrentData, hdata, hdel]
  · simp [StateMonitor.workCycle, hidle]

/-- Witness for C2 at a concrete burst: two mutations before the wake and
one during the sleep coalesce into a single delivery reflecting all
three. -/
theorem stateMonitor_coalesces_witness :
    StateMonitor.workCycle
        (applyMutations
          (MonitorState.mk (StateMonitorData.mk none none none none none none) false [])
          [MonitorMutation.setState (some 1), MonitorMutation.setProgress (some 2)])
        [MonitorMutation.setCurrentZ (some (3 : ℕ))] =
      some (MonitorState.mk
        (StateMonitorData.mk (some 1) none none none (some 3) (some 2)) false
        [StateMonitorData.mk (some 1) none none none (some 3) (some 2)]) := by
  have h := (stateMonitor_coalesces
    (MonitorState.mk (StateMonitorData.mk none none none none none none) false [])
    [MonitorMutation.setState (some 1), MonitorMutation.setProgress (some 2)]
    [MonitorMutation.setCurrentZ (some (3 : ℕ))] rfl (by decide)).1
  exact h.trans (by decide)

/-! ## Observer fan-out (`Printer._send*Callbacks`)

Each registered observer exposes five handlers; a handler may fail, which
is embedded as `Except`.  Each dispatch loop of the source wraps the call
in `try: ... except: pass`, embedded with `tryCatch`.  The returned list
records, per registered observer in order, the outcome of its own handler
(`some ()` if it returned, `none` if it raised and the exception was
swallowed). -/

def tryExcept {ε β : Type} (r : Except ε β) : Option β :=
  match r with
  | Except.ok b => some b
  | Except.error _ => none

def callbacksLoop {ε κ : Type} : List κ → (κ → Except ε Unit) → Except ε (List (Option Unit))
  | [], _ => pure []
  | cb :: rest, invoke => do
      let r ← tryCatch (do
          let b ← invoke cb
          pure (some b))
        (fun _ => pure none)
      let rs ← callbacksLoop rest invoke
      pure (r :: rs)

structure PrinterCallback (ε τ σ : Type) where
  addTemperature : τ → Except ε Unit
  addLog : List Char → Except ε Unit
  addMessage : List Char → Except ε Unit
  sendCurrentData : σ → Except ε Unit
  sendUpdateTrigger : List Char → Except ε Unit

def Printer.sendAddTemperatureCallbacks {ε τ σ : Type}
    (callbacks : List (PrinterCallback ε τ σ)) (data : τ) : Except ε (List (Option Unit)) :=
  callbacksLoop callbacks (fun callback => callback.addTemperature data)

def Printer.sendAddLogCallbacks {ε τ σ : Type}
    (callbacks : List (PrinterCallback ε τ σ)) (data : List Char) : Except ε (List (Option Unit)) :=
  callbacksLoop callbacks (fun callback => callback.addLog data)

def Printer.sendAddMessageCallbacks {ε τ σ : Type}
    (callbacks : List (PrinterCallback ε τ σ)) (data : List Char) : Except ε (List (Option Unit)) :=
  callbacksLoop callbacks (fun callback => callback.addMessage data)

/-- `_sendCurrentDataCallbacks` hands each observer a deep copy of the
snapshot; in the value semantics of the embedding the copy is the value
itself. -/
def Printer.sendCurrentDataCallbacks {ε τ σ : Type}
    (callbacks : List (PrinterCallback ε τ σ)) (data : σ) : Except ε (List (Option Unit)) :=
  callbacksLoop callbacks (fun callback => callback.sendCurrentData data)

def Printer.sendTriggerUpdateCallbacks {ε τ σ : Type}
    (callbacks : List (PrinterCallback ε τ σ)) (type : List Char) : Except ε (List (Option Unit)) :=
  callbacksLoop callbacks (fun callback => callback.sendUpdateTrigger type)

theorem callbacksLoop_eq {ε κ : Type} (callbacks : List κ) (invoke : κ → Except ε Unit) :
    callbacksLoop callbacks invoke =
      Except.ok (callbacks.map (fun cb => tryExcept (invoke cb))) := by
  induction callbacks with
  | nil => rfl
  | cons cb cbs ih =>
    cases h : invoke cb with
    | ok b =>
      simp [callbacksLoop, tryCatch, tryCatchThe, MonadExceptOf.tryCatch, Except.tryCatch, h,
        bind, Except.bind, pure, Except.pure, ih, tryExcept]
    | error e =>
      simp [callbacksLoop, tryCatch, tryCatchThe, MonadExceptOf.tryCatch, Except.tryCatch, h,
        bind, Except.bind, pure, Except.pure, ih, tryExcept]

/-- C5: for every observer list and every dispatched event of the five
kinds, the dispatch never propagates an exception (it always returns
`Except.ok`), and the returned record shows every registered observer's
own handler invoked in registration order, each outcome independent of the
failures of the others. -/
theorem observer_dispatch_isolated {ε τ σ : Type}
    (callbacks : List (PrinterCallback ε τ σ)) (t : τ) (snap : σ)
    (line text type : List Char) :
    Printer.sendAddTemperatureCallbacks callbacks t =
      Except.ok (callbacks.map (fun cb => tryExcept (cb.addTemperature t))) ∧
    Printer.sendAddLogCallbacks callbacks line =
      Except.ok (callbacks.map (fun cb => tryExcept (cb.addLog line))) ∧
    Printer.sendAddMessageCallbacks callbacks text =
      Except.ok (callbacks.map (fun cb => tryExcept (cb.addMessage text))) ∧
    Printer.sendCurrentDataCallbacks callbacks snap =
      Except.ok (callbacks.map (fun cb => tryExcept (cb.sendCurrentData snap))) ∧
    Printer.sendTriggerUpdateCallbacks callbacks type =
      Except.ok (callbacks.map (fun cb => tryExcept (cb.sendUpdateTrigger type))) :=
  ⟨callbacksLoop_eq _ _, callbacksLoop_eq _ _, callbacksLoop_eq _ _,
   callbacksLoop_eq _ _, callbacksLoop_eq _ _⟩

/-! ## SD device filename derivation (`SdFileStreamer.run`, lines 661-662)

`name = filename[:filename.rfind(".")]; sdFilename = name[:8] + ".GCO"`. -/

/-- Index of the last occurrence of `c`, Python's `str.rfind` (absent:
`none`, standing for Python's `-1`). -/
def rfindChar : List Char → Char → Option Nat
  | [], _ => none
  | x :: xs, c =>
    match rfindChar xs c with
    | some i => some (i + 1)
    | none => if x == c then some 0 else none

/-- `filename[:filename.rfind(".")]`; with no dot present Python's `rfind`
yields `-1` and the slice `[:-1]` drops the final character. -/
def sdLocalStem (filename : List Char) : List Char :=
  match rfindChar filename '.' with
  | some i => filename.take i
  | none => filename.take (filename.length - 1)

/-- The device-resident filename: first 8 characters of the stem plus the
fixed `".GCO"` extension, exactly as sliced in the source (note: the
source applies no case conversion). -/
def sdStreamerName (filename : List Char) : List Char :=
  (sdLocalStem filename).take 8 ++ ".GCO".toList

theorem rfindChar_eq_none {l : List Char} {c : Char} (h : c ∉ l) :
    rfindChar l c = none := by
  induction l with
  | nil => rfl
  | cons x xs ih =>
    have hx : ¬(x == c) = true := by
      simp only [beq_iff_eq]
      intro hxc
      exact h (hxc ▸ List.mem_cons_self x xs)
    have hxs : c ∉ xs := fun hm => h (List.mem_cons_of_mem x hm)
    simp [rfindChar, ih hxs, hx]

theorem rfindChar_append_last (pre post : List Char) (c : Char) (h : c ∉ post) :
    rfindChar (pre ++ c :: post) c = some pre.length := by
  induction pre with
  | nil => simp [rfindChar, rfindChar_eq_none h]
  | cons x xs ih => simp [rfindChar, ih]

/-- C6 counterexample: the code derives `my_long_.GCO` from
`my_long_model.gcode` — the stem's first 8 characters are kept verbatim,
not uppercased, so the specified device name `MY_LONG_M.GCO` is not
produced. -/
theorem sdStreamerName_not_uppercased :
    sdStreamerName "my_long_model.gcode".toList = "my_long_.GCO".toList ∧
    sdStreamerName "my_long_model.gcode".toList ≠ "MY_LONG_M.GCO".toList := by
  decide

/-- C6 amended: for every local filename of the form `stem ++ "." ++ ext`
with a dot-free extension (so the explicit dot is the last extension
separator), the derived device filename is the first 8 characters of the
stem, unchanged in case, followed by `".GCO"`. -/
theorem sdStreamerName_take8_stem (pre post : List Char) (h : '.' ∉ post) :
    sdStreamerName (pre ++ '.' :: post) = pre.take 8 ++ ".GCO".toList := by
  have hfind := rfindChar_append_last pre post '.' h
  have hstem : sdLocalStem (pre ++ '.' :: post) = pre := by
    rw [sdLocalStem, hfind]
    simp [List.take_left pre ('.' :: post)]
  rw [sdStreamerName, hstem]

/-- Witness for the amended C6 at the spec's own example filename. -/
theorem sdStreamerName_take8_stem_witness :
    sdStreamerName ("my_long_model".toList ++ '.' :: "gcode".toList) =
      "my_long_model".toList.take 8 ++ ".GCO".toList :=
  sdStreamerName_take8_stem "my_long_model".toList "gcode".toList (by decide)

/-! ## SdFileStreamer (`SdFileStreamer.run`)

The worker is embedded as a function from its inputs to the trace of
effects (`SdEvent`s) it performs on the Communicator and its callbacks,
plus the exception (if any) escaping `run` after the `finally` block.
`busy` is the `self._comm.isBusy()` guard; `statResult` is the outcome of
`os.stat(...).st_size` / `open(...)` (both inside the `try`); each stream
element is one `for line in f` step, which either yields a raw line or
raises an I/O error.  The `finally` clause always performs
`endSdFileTransfer` and the finish callback. -/

inductive SdEvent where
  | startTransfer (name : List Char)
  | sendCommand (line : List Char)
  | progress (name : List Char) (fraction : ℚ)
  | endTransfer (name : List Char)
  | finish (name : List Char)
  deriving DecidableEq

def SdEvent.isFinish : SdEvent → Bool
  | SdEvent.finish _ => true
  | _ => false

def SdEvent.isEndTransfer : SdEvent → Bool
  | SdEvent.endTransfer _ => true
  | _ => false

/-- The `for line in f` loop: strip the comment portion, trim, send
non-empty results as commands (with the pacing sleep abstracted away), and
report `f.tell() / size` after every line.  An I/O error aborts the loop
and escapes. -/
def SdFileStreamer.streamLines {ε : Type} (sdFilename : List Char) (size : Nat) :
    List (Except ε (List Char)) → Nat → List SdEvent × Option ε
  | [], _ => ([], none)
  | Except.error e :: _, _ => ([], some e)
  | Except.ok rawLine :: rest, tell =>
    let line := pyStrip (stripComment rawLine)
    let tell2 := tell + lineSize rawLine
    let evs :=
      (if line.length > 0 then [SdEvent.sendCommand line] else []) ++
      [SdEvent.progress sdFilename ((tell2 : ℚ) / (size : ℚ))]
    let out := SdFileStreamer.streamLines sdFilename size rest tell2
    (evs ++ out.1, out.2)

/-- `SdFileStreamer.run`: abort silently if the Communicator is busy;
otherwise derive the device filename, run the guarded transfer, and in
all cases reach the `finally` clause closing the transfer session and
firing the finish callback. -/
def SdFileStreamer.run {ε : Type} (busy : Bool) (filename : List Char)
    (statResult : Except ε Nat) (lines : List (Except ε (List Char))) :
    List SdEvent × Option ε :=
  if busy then ([], none)
  else
    let sdFilename := sdStreamerName filename
    let body :=
      match statResult with
      | Except.error e => (([] : List SdEvent), some e)
      | Except.ok size =>
        let out := SdFileStreamer.streamLines sdFilename size lines 0
        (SdEvent.startTransfer sdFilename :: out.1, out.2)
    (body.1 ++ [SdEvent.endTransfer sdFilename, SdEvent.finish sdFilename], body.2)

theorem streamLines_no_finish {ε : Type} (sdFilename : List Char) (size : Nat)
    (lines : List (Except ε (List Char))) (tell : Nat) :
    (SdFileStreamer.streamLines sdFilename size lines tell).1.filter SdEvent.isFinish = [] ∧
    (SdFileStreamer.streamLines sdFilename size lines tell).1.filter SdEvent.isEndTransfer
      = [] := by
  induction lines generalizing tell with
  | nil => exact ⟨rfl, rfl⟩
  | cons l rest ih =>
    cases l with
    | error e => exact ⟨rfl, rfl⟩
    | ok rawLine =>
      obtain ⟨ih1, ih2⟩ := ih (tell + lineSize rawLine)
      constructor
      · simp only [SdFileStreamer.streamLines, List.filter_append, ih1]
        split <;> simp [SdEvent.isFinish]
      · simp only [SdFileStreamer.streamLines, List.filter_append, ih2]
        split <;> simp [SdEvent.isEndTransfer]

/-! ## The Printer orchestrator

State fields mirror the attributes of `Printer.__init__` that the verified
operations touch.  The external `MachineCom` object is abstracted to its
three status flags; delegations into it are recorded as `CommCall`
events.  The `StateMonitor` pushes performed by the operations carry no
orchestrator-visible state and are omitted from `PrinterState`. -/

structure Comm where
  operational : Bool
  printing : Bool
  busy : Bool
  deriving DecidableEq

structure GcodeLoaderRef where
  filename : List Char
  printAfterLoading : Bool
  deriving DecidableEq

structure SdStreamerRef where
  filename : List Char
  file : List Char
  deriving DecidableEq

inductive CommCall where
  | printSdFile
  | printGCode (gcode : Option (List GcodeEntry))
  | sendCommand (cmd : List Char)
  | deleteSdFile (filename : List Char)
  deriving DecidableEq

structure PrinterState where
  comm : Option Comm
  gcodeList : Option (List GcodeEntry)
  filename : Option (List Char)
  sdFile : Option (List Char)
  sdPrinting : Bool
  sdPrintAfterSelect : Bool
  currentZ : Option ℚ
  progress : Option ℚ
  printTime : Option ℚ
  printTimeLeft : Option ℚ
  gcodeLoader : Option GcodeLoaderRef
  sdStreamer : Option SdStreamerRef
  deriving DecidableEq

/-- The state set up by `Printer.__init__` (`sdPrintAfterSelect` is in
fact never initialised by the source; it is defaulted here to false). -/
def initialPrinter : PrinterState :=
  { comm := none, gcodeList := none, filename := none, sdFile := none,
    sdPrinting := false, sdPrintAfterSelect := false, currentZ := none,
    progress := none, printTime := none, printTimeLeft := none,
    gcodeLoader := none, sdStreamer := none }

/-- `Printer._setJobData(filename, gcodeList)` (the JobArchive metadata
lookup and monitor push carry no orchestrator state). -/
def Printer.setJobData (s : PrinterState) (filename : Option (List Char))
    (gcodeList : Option (List GcodeEntry)) : PrinterState :=
  { s with filename := filename, gcodeList := gcodeList }

/-- `Printer._setProgressData(None, None, None, None)` on the reset
paths. -/
def Printer.clearProgressData (s : PrinterState) : PrinterState :=
  { s with progress := none, printTime := none, printTimeLeft := none }

/-- `Printer.startPrint`: guarded by Communicator presence and
operational status, a loaded job source, and not already printing; on
success clears CurrentZ and delegates to the SD or local print path. -/
def Printer.startPrint (s : PrinterState) : PrinterState × List CommCall :=
  match s.comm with
  | none => (s, [])
  | some c =>
    if !c.operational then (s, [])
    else if s.gcodeList = none ∧ s.sdFile = none then (s, [])
    else if c.printing then (s, [])
    else
      let s1 := { s with currentZ := none }
      match s.sdFile with
      | some _ => ({ s1 with sdPrinting := true }, [CommCall.printSdFile])
      | none => (s1, [CommCall.printGCode s.gcodeList])

/-- `Printer.loadGcode(file, printAfterLoading)`: aborts while printing or
while another loader is active; otherwise clears the SD selection and the
job data and starts a `GcodeLoader` (whose loaded-callback choice is
recorded as `printAfterLoading`). -/
def Printer.loadGcode (s : PrinterState) (file : List Char) (printAfterLoading : Bool) :
    PrinterState :=
  if (match s.comm with | some c => c.printing | none => false) || s.gcodeLoader.isSome then
    s
  else
    let s1 := Printer.setJobData { s with sdFile := none } none none
    { s1 with gcodeLoader := some { filename := file, printAfterLoading := printAfterLoading } }

/-- `Printer._onGcodeLoaded(filename, gcodeList)`: install the loaded job,
clear CurrentZ and the progress data, and drop the loader reference. -/
def Printer.onGcodeLoaded (s : PrinterState) (filename : List Char)
    (gcodeList : List GcodeEntry) : PrinterState :=
  let s1 := Printer.setJobData s (some filename) (some gcodeList)
  { Printer.clearProgressData s1 with currentZ := none, gcodeLoader := none }

/-- Completion of the active `GcodeLoader` thread: fires `_onGcodeLoaded`
(chained into `startPrint` when the loader was started with
`printAfterLoading`).  Without an active loader no completion callback
exists. -/
def Printer.gcodeLoaderFinish (s : PrinterState) (gcodeList : List GcodeEntry) :
    PrinterState × List CommCall :=
  match s.gcodeLoader with
  | none => (s, [])
  | some ld =>
    let s1 := Printer.onGcodeLoaded s ld.filename gcodeList
    if ld.printAfterLoading then Printer.startPrint s1 else (s1, [])

/-- `Printer.mcSdSelected(filename, filesize)`: record the SD selection,
set the job data to the SD file with no local command list, and
auto-start when requested at selection time. -/
def Printer.mcSdSelected (s : PrinterState) (filename : List Char) :
    PrinterState × List CommCall :=
  let s1 := Printer.setJobData { s with sdFile := some filename } (some filename) none
  if s1.sdPrintAfterSelect then Printer.startPrint s1 else (s1, [])

/-- `Printer.deleteSdFile(filename)`: no-op without a Communicator;
otherwise clears a matching selection and forwards the deletion. -/
def Printer.deleteSdFile (s : PrinterState) (filename : List Char) :
    PrinterState × List CommCall :=
  match s.comm with
  | none => (s, [])
  | some _ =>
    let s1 := if s.sdFile = some filename then { s with sdFile := none } else s
    (s1, [CommCall.deleteSdFile filename])

/-- `Printer._onSdFileStreamFinish(filename)`: reset CurrentZ and the
progress data and drop the streamer reference (un-sticking the `loading`
flag). -/
def Printer.onSdFileStreamFinish (s : PrinterState) : PrinterState :=
  { Printer.clearProgressData s with currentZ := none, sdStreamer := none }

def Printer.isLoading (s : PrinterState) : Bool :=
  s.gcodeLoader.isSome || s.sdStreamer.isSome

inductive PyError where
  | attributeError
  deriving DecidableEq

/-- `Printer.commands(commands)`: the loop forwards each command through
`self._comm.sendCommand` with no guard — with `_comm` set to `None` the
first iteration raises `AttributeError`. -/
def Printer.commands (s : PrinterState) : List (List Char) → Except PyError (List CommCall)
  | [] => Except.ok []
  | cmd :: rest =>
    match s.comm with
    | none => Except.error PyError.attributeError
    | some _ =>
      match Printer.commands s rest with
      | Except.ok calls => Except.ok (CommCall.sendCommand cmd :: calls)
      | Except.error e => Except.error e

/-- `Printer.command(command)` delegates to `commands([command])`. -/
def Printer.command (s : PrinterState) (cmd : List Char) : Except PyError (List CommCall) :=
  Printer.commands s [cmd]

/-! ## C7: finish-callback discipline of the SdUploader. -/

/-- C7 counterexample: a run that finds the Communicator busy returns
without error, yet performs no event at all — in particular it neither
closes a transfer session nor fires the finish callback, so finish does
not fire on every run. -/
theorem sdStreamer_busy_skips_finish :
    SdFileStreamer.run true "model.gcode".toList (Except.ok 10)
        ([] : List (Except Unit (List Char))) = ([], none) ∧
    ((SdFileStreamer.run true "model.gcode".toList (Except.ok 10)
        ([] : List (Except Unit (List Char)))).1.filter SdEvent.isFinish).length = 0 :=
  ⟨rfl, rfl⟩

/-- C7 amended: every run of the SdUploader in which the Communicator is
not busy at start — whether the stream completes normally or fails at any
point (stat failure or mid-stream I/O error) — closes the transfer
session exactly once and fires the finish callback with the derived
device filename exactly once, as the final action; and the orchestrator's
finish handler clears the streamer reference, so with no loader active
the `loading` flag cannot remain stuck true. -/
theorem sdStreamer_finish_exactly_once {ε : Type} (filename : List Char)
    (statResult : Except ε Nat) (lines : List (Except ε (List Char)))
    (s : PrinterState) :
    (SdFileStreamer.run false filename statResult lines).1.filter SdEvent.isFinish =
      [SdEvent.finish (sdStreamerName filename)] ∧
    (SdFileStreamer.run false filename statResult lines).1.filter SdEvent.isEndTransfer =
      [SdEvent.endTransfer (sdStreamerName filename)] ∧
    (SdFileStreamer.run false filename statResult lines).1.getLast? =
      some (SdEvent.finish (sdStreamerName filename)) ∧
    (Printer.onSdFileStreamFinish s).sdStreamer = none ∧
    (s.gcodeLoader = none → Printer.isLoading (Printer.onSdFileStreamFinish s) = false) := by
  have hbody : ∀ body : List SdEvent,
      body.filter SdEvent.isFinish = [] → body.filter SdEvent.isEndTransfer = [] →
      (body ++ [SdEvent.endTransfer (sdStreamerName filename),
        SdEvent.finish (sdStreamerName filename)]).filter SdEvent.isFinish =
          [SdEvent.finish (sdStreamerName filename)] ∧
      (body ++ [SdEvent.endTransfer (sdStreamerName filename),
        SdEvent.finish (sdStreamerName filename)]).filter SdEvent.isEndTransfer =
          [SdEvent.endTransfer (sdStreamerName filename)] ∧
      (body ++ [SdEvent.endTransfer (sdStreamerName filename),
        SdEvent.finish (sdStreamerName filename)]).getLast? =
          some (SdEvent.finish (sdStreamerName filename)) := by
    intro body h1 h2
    refine ⟨?_, ?_, ?_⟩
    · simp [List.filter_append, h1, SdEvent.isFinish, SdEvent.isEndTransfer]
    · simp [List.filter_append, h2, SdEvent.isFinish, SdEvent.isEndTransfer]
    · rw [show [SdEvent.endTransfer (sdStreamerName filename),
          SdEvent.finish (sdStreamerName filename)] =
          [SdEvent.endTransfer (sdStreamerName filename)] ++
          [SdEvent.finish (sdStreamerName filename)] from rfl,
        ← List.append_assoc, List.getLast?_concat]
  have hclear : (Printer.onSdFileStreamFinish s).sdStreamer = none := rfl
  have hload : s.gcodeLoader = none →
      Printer.isLoading (Printer.onSdFileStreamFinish s) = false := by
    intro h
    simp [Printer.isLoading, Printer.onSdFileStreamFinish, Printer.clearProgressData, h]
  cases statResult with
  | error e =>
    have h := hbody [] rfl rfl
    exact ⟨h.1, h.2.1, h.2.2, hclear, hload⟩
  | ok size =>
    obtain ⟨hs1, hs2⟩ := streamLines_no_finish (ε := ε) (sdStreamerName filename) size lines 0
    have h := hbody
      (SdEvent.startTransfer (sdStreamerName filename) ::
        (SdFileStreamer.streamLines (sdStreamerName filename) size lines 0).1)
      (by simp [hs1, SdEvent.isFinish]) (by simp [hs2, SdEvent.isEndTransfer])
    exact ⟨h.1, h.2.1, h.2.2, hclear, hload⟩

def c7FinishState : PrinterState :=
  { initialPrinter with
    sdStreamer := some { filename := "model.gcode".toList, file := "model.gcode".toList } }

/-- Witness for the amended C7: after the finish handler runs on a state
with an active streamer and no loader, the loading flag is down. -/
theorem sdStreamer_finish_exactly_once_witness :
    Printer.isLoading (Printer.onSdFileStreamFinish c7FinishState) = false :=
  (sdStreamer_finish_exactly_once "model.gcode".toList (Except.ok 5)
    ([Except.ok "G1 X7".toList, Except.error ()] : List (Except Unit (List Char)))
    c7FinishState).2.2.2.2 rfl

/-! ## C1: `startPrint`. -/

def c1State : PrinterState :=
  { initialPrinter with
    comm := some { operational := true, printing := false, busy := false },
    gcodeList := some [GcodeEntry.cmd "G1 X0".toList],
    progress := some (1 / 2), printTime := some 10, printTimeLeft := some 5 }

/-- C1 counterexample: on a state satisfying every precondition (comm
present and operational, not printing, local job loaded) whose progress
snapshot holds a value, `startPrint` delegates to the local-print path but
leaves the progress snapshot untouched — it is not reset as claimed. -/
theorem startPrint_keeps_progress :
    (Printer.startPrint c1State).2 =
      [CommCall.printGCode (some [GcodeEntry.cmd "G1 X0".toList])] ∧
    c1State.progress = some (1 / 2) ∧
    (Printer.startPrint c1State).1.progress = some (1 / 2) ∧
    (Printer.startPrint c1State).1.progress ≠ none :=
  ⟨rfl, rfl, rfl, by decide⟩

/-- C1 amended: `startPrint` is a no-op (returned state unchanged, no
Communicator call) when the Communicator is absent, not operational, no
job source is set, or a print is already running; when every precondition
holds it resets CurrentZ — leaving the progress snapshot unchanged — and
delegates to the SD-print path (raising the SD-printing flag) when an SD
file is selected, else to the local-print path with the loaded command
list. -/
theorem startPrint_spec (s : PrinterState) :
    (s.comm = none → Printer.startPrint s = (s, [])) ∧
    (∀ c, s.comm = some c → c.operational = false → Printer.startPrint s = (s, [])) ∧
    (s.gcodeList = none → s.sdFile = none → Printer.startPrint s = (s, [])) ∧
    (∀ c, s.comm = some c → c.printing = true → Printer.startPrint s = (s, [])) ∧
    (∀ c f, s.comm = some c → c.operational = true → c.printing = false →
      s.sdFile = some f →
      Printer.startPrint s =
        ({ s with currentZ := none, sdPrinting := true }, [CommCall.printSdFile])) ∧
    (∀ c l, s.comm = some c → c.operational = true → c.printing = false →
      s.sdFile = none → s.gcodeList = some l →
      Printer.startPrint s = ({ s with currentZ := none }, [CommCall.printGCode (some l)])) := by
  refine ⟨?_, ?_, ?_, ?_, ?_, ?_⟩
  · intro h
    simp [Printer.startPrint, h]
  · intro c hc hop
    simp [Printer.startPrint, hc, hop]
  · intro hg hsd
    cases hc : s.comm with
    | none => simp [Printer.startPrint, hc]
    | some c => simp [Printer.startPrint, hc, hg, hsd]
  · intro c hc hpr
    cases hop : c.operational with
    | false => simp [Printer.startPrint, hc, hop]
    | true =>
      by_cases hg : s.gcodeList = none ∧ s.sdFile = none
      · simp [Printer.startPrint, hc, hop, hg]
      · simp [Printer.startPrint, hc, hop, hg, hpr]
  · intro c f hc hop hpr hsd
    simp [Printer.startPrint, hc, hop, hpr, hsd]
  · intro c l hc hop hpr hsd hg
    simp [Printer.startPrint, hc, hop, hpr, hsd, hg]

/-- Witness for the amended C1: the local-print branch at a concrete
ready state. -/
theorem startPrint_spec_witness :
    Printer.startPrint c1State =
      ({ c1State with currentZ := none },
       [CommCall.printGCode (some [GcodeEntry.cmd "G1 X0".toList])]) :=
  (startPrint_spec c1State).2.2.2.2.2 _ _ rfl rfl rfl rfl rfl

/-! ## C8: `loadGcode` re-entrancy. -/

/-- C8: while a print is in progress or a `GcodeLoader` is active,
`loadGcode` leaves the state untouched: no second loader is started, the
in-flight loader's target and callback choice survive, and neither the SD
selection nor the job metadata is cleared. -/
theorem loadGcode_noop (s : PrinterState) (file : List Char) (printAfterLoading : Bool)
    (h : (∃ c, s.comm = some c ∧ c.printing = true) ∨ s.gcodeLoader ≠ none) :
    Printer.loadGcode s file printAfterLoading = s ∧
    (Printer.loadGcode s file printAfterLoading).gcodeLoader = s.gcodeLoader ∧
    (Printer.loadGcode s file printAfterLoading).sdFile = s.sdFile ∧
    (Printer.loadGcode s file printAfterLoading).gcodeList = s.gcodeList ∧
    (Printer.loadGcode s file printAfterLoading).filename = s.filename := by
  have hguard :
      ((match s.comm with | some c => c.printing | none => false) || s.gcodeLoader.isSome)
        = true := by
    rcases h with ⟨c, hc, hp⟩ | hl
    · rw [hc]
      simp [hp]
    · simp [Option.isSome_iff_ne_none, hl]
  have he : Printer.loadGcode s file printAfterLoading = s := by
    simp [Printer.loadGcode, hguard]
  exact ⟨he, by rw [he], by rw [he], by rw [he], by rw [he]⟩

def c8State : PrinterState :=
  { initialPrinter with
    gcodeLoader := some { filename := "a.gcode".toList, printAfterLoading := false } }

/-- Witness for C8: a second `loadGcode` against an in-flight loader
changes nothing. -/
theorem loadGcode_noop_witness :
    Printer.loadGcode c8State "b.gcode".toList true = c8State :=
  (loadGcode_noop c8State "b.gcode".toList true (Or.inr (by decide))).1

/-! ## C9: `command`/`commands` with no Communicator. -/

def c9Connected : PrinterState :=
  { initialPrinter with
    comm := some { operational := true, printing := false, busy := false } }

/-- C9: with no Communicator connected, `commands` on a non-empty list
raises `AttributeError` (`None.sendCommand`) instead of being a silent
no-op; connected, it forwards every command verbatim and in order.  (An
empty list does not raise only because the loop body never runs.) -/
theorem commands_unguarded_raises :
    Printer.commands initialPrinter ["G28".toList] =
      Except.error PyError.attributeError ∧
    Printer.command initialPrinter "G28".toList =
      Except.error PyError.attributeError ∧
    Printer.commands c9Connected ["G28".toList, "G1 X0".toList] =
      Except.ok [CommCall.sendCommand "G28".toList, CommCall.sendCommand "G1 X0".toList] ∧
    Printer.commands initialPrinter [] = Except.ok [] :=
  ⟨rfl, rfl, rfl, rfl⟩

/-! ## C10: mutual exclusion of the two job sources. -/

def jobSourcesExclusive (s : PrinterState) : Prop :=
  s.gcodeList = none ∨ s.sdFile = none

inductive PrinterEvent where
  | loadGcode (file : List Char) (printAfterLoading : Bool)
  | gcodeLoaded (gcodeList : List GcodeEntry)
  | sdSelected (filename : List Char)
  | deleteSdFile (filename : List Char)
  | startPrint

def Printer.step (s : PrinterState) : PrinterEvent → PrinterState
  | PrinterEvent.loadGcode f p => Printer.loadGcode s f p
  | PrinterEvent.gcodeLoaded g => (Printer.gcodeLoaderFinish s g).1
  | PrinterEvent.sdSelected f => (Printer.mcSdSelected s f).1
  | PrinterEvent.deleteSdFile f => (Printer.deleteSdFile s f).1
  | PrinterEvent.startPrint => (Printer.startPrint s).1

def Printer.runEvents (s : PrinterState) (es : List PrinterEvent) : PrinterState :=
  es.foldl Printer.step s

def c10Start : PrinterState :=
  { initialPrinter with
    comm := some { operational := true, printing := false, busy := false } }

/-- C10 counterexample: from a freshly connected state, start a local
load, let an SD selection arrive while the loader is in flight, then let
the loader complete — the completion installs the command list without
clearing the SD selection, leaving both job sources printable at once. -/
theorem jobSources_race_counterexample :
    ¬ jobSourcesExclusive (Printer.runEvents c10Start
      [PrinterEvent.loadGcode "model.gcode".toList false,
       PrinterEvent.sdSelected "MODEL.GCO".toList,
       PrinterEvent.gcodeLoaded [GcodeEntry.cmd "G1 X0".toList]]) := by
  unfold jobSourcesExclusive
  decide

/-- Traces in which a loader completion never fires while an SD file is
selected (with the loader still active). -/
def noLoadRace : PrinterState → List PrinterEvent → Prop
  | _, [] => True
  | s, e :: es =>
    (match e with
     | PrinterEvent.gcodeLoaded _ => s.gcodeLoader = none ∨ s.sdFile = none
     | _ => True) ∧ noLoadRace (Printer.step s e) es

theorem startPrint_preserves_sources (s : PrinterState) :
    (Printer.startPrint s).1.gcodeList = s.gcodeList ∧
    (Printer.startPrint s).1.sdFile = s.sdFile := by
  cases hc : s.comm with
  | none => simp [Printer.startPrint, hc]
  | some c =>
    simp only [Printer.startPrint, hc]
    split
    · exact ⟨rfl, rfl⟩
    · split
      · exact ⟨rfl, rfl⟩
      · split
        · exact ⟨rfl, rfl⟩
        · cases hsd : s.sdFile <;> simp [hsd]

theorem step_preserves_exclusive (s : PrinterState) (e : PrinterEvent)
    (hs : jobSourcesExclusive s)
    (he : ∀ g, e = PrinterEvent.gcodeLoaded g → s.gcodeLoader = none ∨ s.sdFile = none) :
    jobSourcesExclusive (Printer.step s e) := by
  cases e with
  | loadGcode f p =>
    simp only [Printer.step, Printer.loadGcode]
    split
    · exact hs
    · exact Or.inl rfl
  | gcodeLoaded g =>
    have hrace := he g rfl
    cases hld : s.gcodeLoader with
    | none => simpa [Printer.step, Printer.gcodeLoaderFinish, hld] using hs
    | some ld =>
      have hsd : s.sdFile = none := by
        rcases hrace with h | h
        · exact absurd h (by simp [hld])
        · exact h
      simp only [Printer.step, Printer.gcodeLoaderFinish, hld]
      split
      · have hp := startPrint_preserves_sources
          (Printer.onGcodeLoaded s ld.filename g)
        refine Or.inr ?_
        rw [hp.2]
        simpa [Printer.onGcodeLoaded, Printer.setJobData, Printer.clearProgressData] using hsd
      · refine Or.inr ?_
        simpa [Printer.onGcodeLoaded, Printer.setJobData, Printer.clearProgressData] using hsd
  | sdSelected f =>
    simp only [Printer.step, Printer.mcSdSelected]
    split
    · have hp := startPrint_preserves_sources
        (Printer.setJobData { s with sdFile := some f } (some f) none)
      refine Or.inl ?_
      rw [hp.1]
      simp [Printer.setJobData]
    · exact Or.inl (by simp [Printer.setJobData])
  | deleteSdFile f =>
    cases hc : s.comm with
    | none => simpa [Printer.step, Printer.deleteSdFile, hc] using hs
    | some c =>
      simp only [Printer.step, Printer.deleteSdFile, hc]
      split
      · exact Or.inr rfl
      · exact hs
  | startPrint =>
    have hp := startPrint_preserves_sources s
    rcases hs with h | h
    · exact Or.inl (by rw [Printer.step, hp.1, h])
    · exact Or.inr (by rw [Printer.step, hp.2, h])

/-- C10 amended: `loadGcode` (when it proceeds) clears the SD selection
and an SD selection clears the local command list, so along every event
trace in which no loader completion fires while an SD file is selected,
at most one of the two job sources is set in every reachable state.  (The
counterexample trace shows the invariant does fail when a completion
races a selection.) -/
theorem jobSources_exclusive_noRace (s : PrinterState) (es : List PrinterEvent)
    (hs : jobSourcesExclusive s) (hr : noLoadRace s es) :
    jobSourcesExclusive (Printer.runEvents s es) := by
  induction es generalizing s with
  | nil => exact hs
  | cons e es ih =>
    obtain ⟨he, hr2⟩ := hr
    exact ih (Printer.step s e)
      (step_preserves_exclusive s e hs (fun g hg => by cases hg; exact he)) hr2

/-- Witness for the amended C10: the same three events in the race-free
order (load, completion, then SD selection) keep the sources exclusive. -/
theorem jobSources_exclusive_noRace_witness :
    jobSourcesExclusive (Printer.runEvents c10Start
      [PrinterEvent.loadGcode "model.gcode".toList false,
       PrinterEvent.gcodeLoaded [GcodeEntry.cmd "G1 X0".toList],
       PrinterEvent.sdSelected "MODEL.GCO".toList]) :=
  jobSources_exclusive_noRace c10Start
    [PrinterEvent.loadGcode "model.gcode".toList false,
     PrinterEvent.gcodeLoaded [GcodeEntry.cmd "G1 X0".toList],
     PrinterEvent.sdSelected "MODEL.GCO".toList]
    (Or.inl rfl) ⟨True.intro, Or.inr rfl, True.intro, True.intro⟩

end OctoPrint
